import Mathlib

/-!
# Verification of the simple-orm-js core (type conversion, validation, uniqueness)

This file is a shallow embedding, in Lean 4, of the core of the
`simple-orm-js` Cassandra object mapper:

* `TypeConverter` (src/converter: `convert`, `convertObject`, `getCassandraType`),
* `Validator` (src/validator.ts: `validate`, `validateField`),
* the `CassandraModel` orchestration (src/client: `create`, `find`, `findOne`,
  `update`, `checkUniqueConstraints`, `getUniqueFields`),

together with theorems settling the frozen claims C1 .. C10 about that code.

Modelling conventions:

* JavaScript values crossing the ORM's API are modelled by the type `Value`:
  scalars (`Prim`) plus one level of collection nesting (arrays, Sets, plain
  objects, driver tuples).  The claims under verification only exercise flat
  values; a non-scalar nested inside a collection is outside the modelled
  universe and is represented by the placeholder scalar `Prim.pnested`.
* JS numbers are modelled as rationals (`ℚ`); `NaN` is the distinguished
  scalar `Prim.pnan`.  The decimal rendering of a non-integral number
  (JS "2.5") is approximated by the rational rendering ("5/2"); every
  message checked by a claim involves integral numbers only, where the two
  renderings agree.
* Driver values produced by the `cassandra-driver` library (`types.Uuid`,
  `types.TimeUuid`, `types.Long`, `types.Integer`, `types.InetAddress`,
  `Buffer`, `types.Tuple`) are modelled by opaque scalar constructors.
  `types.Uuid.random()`, `types.TimeUuid.now()` and `nanoid()` produce fresh
  random identifiers; they are modelled by the marker `Prim.pid kind 0`
  ("a freshly generated identifier of this kind").  No claim depends on two
  generated identifiers being distinct.
* JS strict equality `===`/`!==` is modelled structurally.  On the strings
  and numbers that the claims exercise this is exactly the JS semantics;
  reference identity of driver objects is not modelled.
* A JS exception thrown by the repository's own code paths is modelled by
  `Except.error` with the thrown message.
-/

/-- Scalar JavaScript/driver values. -/
inductive Prim where
  /-- JS `undefined`. -/
  | pundefined
  /-- JS `null`. -/
  | pnull
  /-- JS boolean. -/
  | pbool (b : Bool)
  /-- JS number (modelled as a rational; `NaN` is `pnan`). -/
  | pnum (q : ℚ)
  /-- JS `NaN`. -/
  | pnan
  /-- JS string. -/
  | pstr (s : String)
  /-- JS `Date` (milliseconds since epoch). -/
  | pdate (ms : ℚ)
  /-- driver `types.Long` (64-bit integer object). -/
  | plong (n : ℤ)
  /-- driver `types.Integer` (arbitrary-precision integer object). -/
  | pvarint (n : ℤ)
  /-- driver `types.InetAddress`. -/
  | pinet (s : String)
  /-- node `Buffer` (contents as a string). -/
  | pbuf (s : String)
  /-- a generated identifier object/string (`types.Uuid`, `types.TimeUuid`,
  or a `nanoid()` string), tagged by its kind. -/
  | pid (kind : String) (tag : ℕ)
  /-- stand-in for a non-scalar value nested inside a collection; outside the
  modelled universe, never produced on the paths the claims exercise. -/
  | pnested
  deriving DecidableEq, Repr

/-- JavaScript values crossing the ORM API: scalars plus one level of
collection nesting. -/
inductive Value where
  /-- a scalar. -/
  | prim (p : Prim)
  /-- a JS array. -/
  | varr (xs : List Prim)
  /-- a JS `Set`. -/
  | vset (xs : List Prim)
  /-- a plain JS object (insertion-ordered string keys). -/
  | vobj (fs : List (String × Prim))
  /-- a driver `types.Tuple`. -/
  | vtuple (xs : List Prim)
  deriving DecidableEq, Repr

/-- JS `undefined` as a `Value`. -/
def vundefined : Value := .prim .pundefined

/-- JS `null` as a `Value`. -/
def vnull : Value := .prim .pnull

/-- A JS string as a `Value`. -/
def vstr (s : String) : Value := .prim (.pstr s)

/-- A JS number as a `Value`. -/
def vnum (q : ℚ) : Value := .prim (.pnum q)

/-- A JS boolean as a `Value`. -/
def vbool (b : Bool) : Value := .prim (.pbool b)

/-- A generated identifier as a `Value`. -/
def vid (kind : String) (tag : ℕ) : Value := .prim (.pid kind tag)

/-- JS truthiness of a scalar: `undefined`, `null`, `false`, `0`, `NaN` and
`""` are falsy; every object (Date, Long, Buffer, Uuid, ...) is truthy. -/
def truthyP : Prim → Bool
  | .pundefined => false
  | .pnull => false
  | .pbool b => b
  | .pnum q => decide (q ≠ 0)
  | .pnan => false
  | .pstr s => decide (s ≠ "")
  | _ => true

/-- JS truthiness of a value: arrays, Sets, objects and tuples are truthy. -/
def truthy : Value → Bool
  | .prim p => truthyP p
  | _ => true

/-- Is this value JS `undefined`? -/
def isUndefined : Value → Bool
  | .prim .pundefined => true
  | _ => false

/-- JS number rendering.  Integral numbers render as in JS ("2", "-3");
non-integral numbers render as rationals ("5/2") where JS renders decimals —
every message a claim checks involves integral numbers only. -/
def renderNum (q : ℚ) : String := toString q

/-- JS `String(p)` coercion of a scalar.  Renderings of driver objects
(Date, Long, Uuid, ...) are modelled opaquely; every claim exercises this
only on strings and numbers, where it is exact. -/
def jsStringP : Prim → String
  | .pundefined => "undefined"
  | .pnull => "null"
  | .pbool b => if b then "true" else "false"
  | .pnum q => renderNum q
  | .pnan => "NaN"
  | .pstr s => s
  | .pdate ms => "[Date " ++ renderNum ms ++ "]"
  | .plong n => toString n
  | .pvarint n => toString n
  | .pinet s => s
  | .pbuf s => s
  | .pid kind tag => kind ++ "-" ++ toString tag
  | .pnested => "[object Object]"

/-- JS `String(v)` coercion: arrays join their elements with commas, plain
objects render as `[object Object]`. -/
def jsString : Value → String
  | .prim p => jsStringP p
  | .varr xs => String.intercalate "," (xs.map jsStringP)
  | .vset _ => "[object Set]"
  | .vobj _ => "[object Object]"
  | .vtuple xs => String.intercalate "," (xs.map jsStringP)

/-- Digits of the longest leading run of decimal digits, as a number,
together with the rest of the character stream and how many digits were
consumed. -/
def takeDigits : List Char → ℕ → ℕ × ℕ × List Char
  | c :: cs, acc =>
    if c.isDigit then
      let (n, k, rest) := takeDigits cs (acc * 10 + (c.toNat - '0'.toNat))
      (n, k + 1, rest)
    else (acc, 0, c :: cs)
  | [], acc => (acc, 0, [])

/-- JS `parseInt(String(v), 10)`: skip leading whitespace, optional sign,
then the longest run of decimal digits; `NaN` when no digit is found. -/
def parseIntChars (cs : List Char) : Prim :=
  let cs := cs.dropWhile Char.isWhitespace
  match cs with
  | '-' :: rest =>
    let (n, k, _) := takeDigits rest 0
    if k = 0 then .pnan else .pnum (-(n : ℚ))
  | '+' :: rest =>
    let (n, k, _) := takeDigits rest 0
    if k = 0 then .pnan else .pnum (n : ℚ)
  | rest =>
    let (n, k, _) := takeDigits rest 0
    if k = 0 then .pnan else .pnum (n : ℚ)

/-- JS `parseInt(v, 10)` (the argument is coerced to a string first). -/
def jsParseInt (v : Value) : Prim := parseIntChars (jsString v).toList

/-- Mantissa-and-fraction part of JS `parseFloat`: a digit run, optionally
followed by `.` and another digit run.  Exponent notation and `Infinity`
are not modelled (unexercised by the claims and by the repository's tests). -/
def parseFloatMag (cs : List Char) : Option ℚ :=
  let (intPart, kInt, rest) := takeDigits cs 0
  match rest with
  | '.' :: frac =>
    let (fracPart, kFrac, _) := takeDigits frac 0
    if kInt = 0 ∧ kFrac = 0 then none
    else some ((intPart : ℚ) + (fracPart : ℚ) / ((10 : ℚ) ^ kFrac))
  | _ => if kInt = 0 then none else some (intPart : ℚ)

/-- JS `parseFloat(String(v))`: skip leading whitespace, optional sign, then
a decimal mantissa; `NaN` when no digit is found. -/
def parseFloatChars (cs : List Char) : Prim :=
  let cs := cs.dropWhile Char.isWhitespace
  match cs with
  | '-' :: rest =>
    match parseFloatMag rest with
    | some q => .pnum (-q)
    | none => .pnan
  | '+' :: rest =>
    match parseFloatMag rest with
    | some q => .pnum q
    | none => .pnan
  | rest =>
    match parseFloatMag rest with
    | some q => .pnum q
    | none => .pnan

/-- JS `parseFloat(v)` (the argument is coerced to a string first). -/
def jsParseFloat (v : Value) : Prim := parseFloatChars (jsString v).toList

/-- A record / row / where-map: an insertion-ordered JS object of field
name to value (JS objects cannot hold duplicate keys; lookups take the
first occurrence). -/
abbrev Row := List (String × Value)

/-- JS property read `r[k]`: the stored value, or `undefined` when the key
is absent. -/
def getK (r : Row) (k : String) : Value :=
  match r.lookup k with
  | some v => v
  | none => vundefined

/-- JS property write `r[k] = v`: replace in place when the key exists,
append otherwise. -/
def setK : Row → String → Value → Row
  | [], k, v => [(k, v)]
  | (k', v') :: rest, k, v =>
    if k' = k then (k, v) :: rest else (k', v') :: setK rest k v

/-- The emptiness test used by the validator:
`value === undefined || value === null || value === ''`. -/
def isEmptyVal (v : Value) : Bool := v == vundefined || v == vnull || v == vstr ""

/-- Result of a `custom` validation callback: JS `boolean | string`. -/
inductive CustomResult where
  | cbool (b : Bool)
  | cstr (s : String)

/-- Embedding of `ValidationRule` (src/types.ts): the optional constraints of one field.
`pattern` (a `RegExp`) is modelled as its match predicate; `custom` as the
callback itself.  Numeric bounds are JS numbers (`Option ℚ`, `none` =
undefined). -/
structure ValidationRule where
  required : Bool := false
  minLength : Option ℚ := none
  maxLength : Option ℚ := none
  min : Option ℚ := none
  max : Option ℚ := none
  pattern : Option (String → Bool) := none
  isEmail : Bool := false
  isUrl : Bool := false
  isJson : Bool := false
  custom : Option (Value → CustomResult) := none

/-- A field default: a static value or a zero-argument producer function
(`typeof fieldDef.default === 'function'`). -/
inductive DefaultVal where
  | val (v : Value)
  | fn (f : Unit → Value)

/-- Embedding of `FieldDefinition` (src/types.ts): the structured form of a field spec. -/
structure FieldDefinition where
  type : String
  validate : Option ValidationRule := none
  default : Option DefaultVal := none
  unique : Bool := false
  frozen : Bool := false

/-- A field spec: either a bare type tag (`CassandraType`) or a structured
`FieldDefinition` (the `typeof fieldDef === 'string'` dichotomy). -/
inductive FieldDef where
  | simple (t : String)
  | detailed (d : FieldDefinition)

/-- Embedding of `ModelSchema` (src/types.ts).  `fields` is insertion-ordered;
`clustering`, `indexes` and `unique` are optional arrays. -/
structure ModelSchema where
  fields : List (String × FieldDef)
  key : List String
  clustering : Option (List String) := none
  indexes : Option (List String) := none
  unique : Option (List String) := none

/-- The email check of src/validator.ts: the regex
`^[^\s@]+@[^\s@]+\.[^\s@]+$` — no whitespace, exactly one `@` which is not
the first character, and a `.` strictly inside the part after the `@`. -/
def isValidEmail (s : String) : Bool :=
  let cs := s.toList
  let locPart := cs.takeWhile (fun c => c ≠ '@')
  let rest := (cs.dropWhile (fun c => c ≠ '@')).drop 1
  (!cs.any (fun c => c.isWhitespace)) &&
  (cs.count '@' == 1) &&
  (!locPart.isEmpty) &&
  (((rest.drop 1).dropLast).contains '.')

/-- The URL check of src/validator.ts (`new URL(url)` succeeding).
Modelled approximation of the WHATWG URL parser: an alphabetic scheme of
`[A-Za-z0-9+-.]` followed by `:`.  No claim exercises this predicate. -/
def isValidUrl (s : String) : Bool :=
  match s.toList with
  | [] => false
  | c :: rest =>
    c.isAlpha &&
    ((rest.dropWhile (fun d => d.isAlphanum || d == '+' || d == '-' || d == '.')).head? == some ':')

/-- One decimal-digit run for the JSON number grammar. -/
def jsonDigits (cs : List Char) : ℕ × List Char :=
  let (_, k, rest) := takeDigits cs 0
  (k, rest)

/-- JSON number grammar `-?digits(.digits)?((e|E)(+|-)?digits)?` used by the
`isJson` check; returns the unconsumed rest on success.  (JSON's
leading-zero restriction is not modelled; no claim exercises it.) -/
def jsonNumber (cs : List Char) : Option (List Char) :=
  let cs := match cs with
    | '-' :: rest => rest
    | rest => rest
  let (kInt, rest) := jsonDigits cs
  if kInt = 0 then none
  else
    let afterFrac : Option (List Char) :=
      match rest with
      | '.' :: frac =>
        let (kFrac, rest') := jsonDigits frac
        if kFrac = 0 then none else some rest'
      | r => some r
    match afterFrac with
    | none => none
    | some rest =>
      match rest with
      | 'e' :: r | 'E' :: r =>
        let r := match r with
          | '+' :: r' => r'
          | '-' :: r' => r'
          | r' => r'
        let (kExp, rest') := jsonDigits r
        if kExp = 0 then none else some rest'
      | r => some r

/-- JSON whitespace. -/
def skipWsJ (cs : List Char) : List Char :=
  cs.dropWhile (fun c => c = ' ' || c = '\t' || c = '\n' || c = '\r')

/-- A hexadecimal digit (for `\uXXXX` escapes). -/
def isHexChar (c : Char) : Bool :=
  c.isDigit || ('a' ≤ c && c ≤ 'f') || ('A' ≤ c && c ≤ 'F')

/-- Rest of a JSON string literal after the opening quote; returns the
unconsumed input after the closing quote. -/
def jsonStringRest : List Char → Option (List Char)
  | [] => none
  | '"' :: rest => some rest
  | '\\' :: c :: rest =>
    if c = 'u' then
      match rest with
      | a :: b :: c2 :: d :: r =>
        if isHexChar a && isHexChar b && isHexChar c2 && isHexChar d then
          jsonStringRest r
        else none
      | _ => none
    else if c = '"' || c = '\\' || c = '/' || c = 'b' || c = 'f' || c = 'n'
         || c = 'r' || c = 't' then jsonStringRest rest
    else none
  | _ :: rest => jsonStringRest rest

mutual

/-- Fuel-indexed JSON value parser (the `isJson` check is `JSON.parse`
succeeding; `JSON.parse` is a platform API, modelled by this grammar).
Returns the unconsumed rest on success. -/
def jsonValue : ℕ → List Char → Option (List Char)
  | 0, _ => none
  | fuel + 1, cs =>
    match skipWsJ cs with
    | 'n' :: 'u' :: 'l' :: 'l' :: rest => some rest
    | 't' :: 'r' :: 'u' :: 'e' :: rest => some rest
    | 'f' :: 'a' :: 'l' :: 's' :: 'e' :: rest => some rest
    | '"' :: rest => jsonStringRest rest
    | '[' :: rest =>
      match skipWsJ rest with
      | ']' :: r => some r
      | _ => jsonArrayLoop fuel rest
    | '\x7b' :: rest =>
      match skipWsJ rest with
      | '\x7d' :: r => some r
      | _ => jsonObjectLoop fuel rest
    | cs' => jsonNumber cs'

/-- Comma-separated JSON values terminated by `]`. -/
def jsonArrayLoop : ℕ → List Char → Option (List Char)
  | 0, _ => none
  | fuel + 1, cs =>
    match jsonValue fuel cs with
    | none => none
    | some rest =>
      match skipWsJ rest with
      | ',' :: r => jsonArrayLoop fuel r
      | ']' :: r => some r
      | _ => none

/-- Comma-separated `"key": value` pairs terminated by the closing brace. -/
def jsonObjectLoop : ℕ → List Char → Option (List Char)
  | 0, _ => none
  | fuel + 1, cs =>
    match skipWsJ cs with
    | '"' :: r =>
      match jsonStringRest r with
      | none => none
      | some r2 =>
        match skipWsJ r2 with
        | ':' :: r3 =>
          match jsonValue fuel r3 with
          | none => none
          | some r4 =>
            match skipWsJ r4 with
            | ',' :: r5 => jsonObjectLoop fuel r5
            | '\x7d' :: r5 => some r5
            | _ => none
        | _ => none
    | _ => none

end

/-- The JSON check of src/validator.ts: `JSON.parse(json)` succeeding,
modelled as the JSON grammar accepting the whole string. -/
def isValidJson (s : String) : Bool :=
  match jsonValue (s.length + 1) s.toList with
  | some rest => (skipWsJ rest).isEmpty
  | none => false

namespace Validator

/-- Embedding of `Validator.getValidationRule`: a bare type tag carries no rules
(`typeof fieldDef === 'string'`); a structured spec carries
`fieldDef.validate || null`. -/
def getValidationRule : FieldDef → Option ValidationRule
  | .simple _ => none
  | .detailed d => d.validate

/-- Embedding of `Validator.validateField` (src/validator.ts, lines 28-84): `required`
first with an early return, an early return for empty optional values,
then the independent string checks, number checks and the custom callback,
accumulated in push order. -/
def validateField (fieldName : String) (value : Value) (rule : ValidationRule) :
    List String :=
  if rule.required && isEmptyVal value then
    [fieldName ++ " is required"]
  else if isEmptyVal value then
    []
  else
    (match value with
     | .prim (.pstr s) =>
       (match rule.minLength with
        | some n =>
          if n ≠ 0 ∧ (s.length : ℚ) < n then
            [fieldName ++ " must be at least " ++ renderNum n ++ " characters"]
          else []
        | none => []) ++
       (match rule.maxLength with
        | some n =>
          if n ≠ 0 ∧ (s.length : ℚ) > n then
            [fieldName ++ " must be at most " ++ renderNum n ++ " characters"]
          else []
        | none => []) ++
       (match rule.pattern with
        | some test =>
          if !test s then [fieldName ++ " format is invalid"] else []
        | none => []) ++
       (if rule.isEmail && !isValidEmail s then
          [fieldName ++ " must be a valid email"]
        else []) ++
       (if rule.isUrl && !isValidUrl s then
          [fieldName ++ " must be a valid URL"]
        else []) ++
       (if rule.isJson && !isValidJson s then
          [fieldName ++ " must be valid JSON"]
        else [])
     | _ => []) ++
    (match value with
     | .prim (.pnum q) =>
       (match rule.min with
        | some n =>
          if q < n then [fieldName ++ " must be at least " ++ renderNum n]
          else []
        | none => []) ++
       (match rule.max with
        | some n =>
          if q > n then [fieldName ++ " must be at most " ++ renderNum n]
          else []
        | none => [])
     | _ => []) ++
    (match rule.custom with
     | some f =>
       match f value with
       | .cbool true => []
       | .cbool false => [fieldName ++ " is invalid"]
       | .cstr m => [m]
     | none => [])

/-- The per-field body of the `Validator.validate` loop: no contribution
when the field has no rule set, none in update mode when the value is
`undefined` (`continue`), otherwise the field's `validateField` errors. -/
def fieldContribution (data : Row) (isUpdate : Bool) (entry : String × FieldDef) :
    List String :=
  match getValidationRule entry.2 with
  | none => []
  | some rule =>
    let value := getK data entry.1
    if isUpdate && isUndefined value then [] else validateField entry.1 value rule

/-- Embedding of `Validator.validate` (src/validator.ts, lines 4-21): iterate the
declared fields in order, accumulating each field's errors. -/
def validate (data : Row) (fields : List (String × FieldDef)) (isUpdate : Bool) :
    List String :=
  match fields with
  | [] => []
  | entry :: rest =>
    fieldContribution data isUpdate entry ++ validate data rest isUpdate

end Validator

/-- A collection element in the modelled universe: scalars stay themselves,
a nested non-scalar becomes the out-of-universe placeholder. -/
def toPrim : Value → Prim
  | .prim p => p
  | _ => .pnested

/-- Truncation toward zero (JS `Long.fromValue` on a fractional number). -/
def intTrunc (q : ℚ) : ℤ := if q < 0 then ⌈q⌉ else ⌊q⌋

/-- Driver `types.Long.fromValue(v)`.  Strings parse as decimal integers;
an unparsable input throws in JS and is modelled as 0 (unexercised by the
claims and tests). -/
def longFromValue : Value → Prim
  | .prim (.plong n) => .plong n
  | .prim (.pnum q) => .plong (intTrunc q)
  | v =>
    match parseIntChars (jsString v).toList with
    | .pnum q => .plong (intTrunc q)
    | _ => .plong 0

/-- Driver `types.Integer.fromString(s)`.  An unparsable input throws in JS
and is modelled as 0 (unexercised by the claims and tests). -/
def varintFromString (s : String) : Prim :=
  match parseIntChars s.toList with
  | .pnum q => .pvarint (intTrunc q)
  | _ => .pvarint 0

/-- Embedding of `x instanceof Date ? x : new Date(x)` on a collection element.
`new Date` of a number is milliseconds since epoch; construction from
strings and other values is a platform API modelled opaquely as epoch 0. -/
def dateFromP : Prim → Prim
  | .pdate ms => .pdate ms
  | .pnum q => .pdate q
  | _ => .pdate 0

/-- Embedding of `v instanceof Date ? v : new Date(v)` on a whole value. -/
def dateFromV : Value → Prim
  | .prim p => dateFromP p
  | _ => .pdate 0

/-- Embedding of `Object.entries(v)`: own enumerable entries — the entries of a plain
object, the indexed elements of an array or string, nothing for other
values. -/
def entriesOf : Value → List (String × Prim)
  | .vobj fs => fs
  | .varr xs => xs.enum.map (fun e => (toString e.1, e.2))
  | .prim (.pstr s) =>
    s.toList.enum.map (fun e => (toString e.1, .pstr (String.singleton e.2)))
  | _ => []

/-- Embedding of `parseInt(x, 10)` on a collection element. -/
def jsParseIntP (p : Prim) : Prim := parseIntChars (jsStringP p).toList

/-- JSON string quoting for `JSON.stringify` (the `"` and `\` escapes;
control-character escapes are not modelled — unexercised). -/
def jsonQuote (s : String) : String :=
  "\"" ++ String.join (s.toList.map (fun c =>
    if c = '"' then "\\\""
    else if c = '\\' then "\\\\"
    else String.singleton c)) ++ "\""

/-- Embedding of `JSON.stringify` of a scalar; `none` models JS `undefined` (which
`JSON.stringify` returns for `undefined`).  Serializations of driver
objects (Date.toJSON, Long, ...) are platform behavior modelled opaquely
through their opaque string renderings. -/
def jsonStringifyP : Prim → Option String
  | .pundefined => none
  | .pnull => some "null"
  | .pbool b => some (if b then "true" else "false")
  | .pnum q => some (renderNum q)
  | .pnan => some "null"
  | .pstr s => some (jsonQuote s)
  | p => some (jsonQuote (jsStringP p))

/-- Embedding of `JSON.stringify(v)` as a value (`undefined` in, `undefined` out;
`undefined` array elements serialize as `null`; object entries with
`undefined` values are dropped). -/
def jsonStringifyV : Value → Value
  | .prim p =>
    match jsonStringifyP p with
    | some s => vstr s
    | none => vundefined
  | .varr xs =>
    vstr ("[" ++ String.intercalate ","
      (xs.map (fun p => (jsonStringifyP p).getD "null")) ++ "]")
  | .vset _ => vstr "\x7b\x7d"
  | .vtuple _ => vstr "\x7b\x7d"
  | .vobj fs =>
    vstr ("\x7b" ++ String.intercalate ","
      (fs.filterMap (fun e =>
        (jsonStringifyP e.2).map (fun s => jsonQuote e.1 ++ ":" ++ s)))
      ++ "\x7d")

namespace TypeConverter

/-- The `TypeConverter.converters` map (src/converter, compiled lines
87-142), entry for entry and in source order; `none` for an unrecognized
type tag. -/
def converterFor : String → Option (Value → Value)
  | "uuid" => some (fun v => if truthy v then v else vid "uuid" 0)
  | "timeuuid" => some (fun v => if truthy v then v else vid "timeuuid" 0)
  | "nanoid" => some (fun v => if truthy v then v else vid "nanoid" 0)
  | "text" => some (fun v => vstr (jsString v))
  | "ascii" => some (fun v => vstr (jsString v))
  | "varchar" => some (fun v => vstr (jsString v))
  | "int" => some (fun v => .prim (jsParseInt v))
  | "bigint" => some (fun v => .prim (longFromValue v))
  | "smallint" => some (fun v => .prim (jsParseInt v))
  | "tinyint" => some (fun v => .prim (jsParseInt v))
  | "varint" => some (fun v => .prim (varintFromString (jsString v)))
  | "counter" => some (fun v => .prim (longFromValue v))
  | "float" => some (fun v => .prim (jsParseFloat v))
  | "double" => some (fun v => .prim (jsParseFloat v))
  | "decimal" => some (fun v =>
      match v with
      | .prim (.pnum q) => vstr (renderNum q)
      | _ => vstr (jsString v))
  | "boolean" => some (fun v => vbool (truthy v))
  | "timestamp" => some (fun v =>
      match v with
      | .prim (.pdate _) => v
      | _ => .prim (dateFromV v))
  | "date" => some (fun v =>
      match v with
      | .prim (.pdate _) => v
      | _ => .prim (dateFromV v))
  | "time" => some (fun v =>
      match v with
      | .prim (.pdate _) => v
      | _ => .prim (dateFromV v))
  | "duration" => some (fun v => vstr (jsString v))
  | "blob" => some (fun v => .prim (.pbuf (jsString v)))
  | "inet" => some (fun v => .prim (.pinet (jsString v)))
  | "set<text>" => some (fun v =>
      match v with
      | .varr xs => .varr xs
      | .vset xs => .varr xs
      | _ => .varr [toPrim v])
  | "list<text>" => some (fun v =>
      match v with
      | .varr xs => .varr xs
      | _ => .varr [toPrim v])
  | "map<text,text>" => some (fun v => if truthy v then v else .vobj [])
  | "set<int>" => some (fun v =>
      match v with
      | .varr xs => .varr (xs.map jsParseIntP)
      | _ => .varr [jsParseInt v])
  | "list<int>" => some (fun v =>
      match v with
      | .varr xs => .varr (xs.map jsParseIntP)
      | _ => .varr [jsParseInt v])
  | "map<text,int>" => some (fun v =>
      if !truthy v then .vobj []
      else .vobj ((entriesOf v).map (fun e => (e.1, jsParseIntP e.2))))
  | "map<int,text>" => some (fun v =>
      if !truthy v then .vobj []
      else .vobj ((entriesOf v).map (fun e =>
        (jsStringP (parseIntChars e.1.toList), .pstr (jsStringP e.2)))))
  | "set<uuid>" => some (fun v =>
      match v with
      | .varr xs => .varr xs
      | _ => .varr [toPrim v])
  | "list<uuid>" => some (fun v =>
      match v with
      | .varr xs => .varr xs
      | _ => .varr [toPrim v])
  | "map<uuid,text>" => some (fun v => if truthy v then v else .vobj [])
  | "set<timestamp>" => some (fun v =>
      match v with
      | .varr xs => .varr (xs.map dateFromP)
      | _ => .varr [dateFromV v])
  | "list<timestamp>" => some (fun v =>
      match v with
      | .varr xs => .varr (xs.map dateFromP)
      | _ => .varr [dateFromV v])
  | "tuple<text,int>" => some (fun v =>
      match v with
      | .varr xs =>
        .vtuple [.pstr (jsStringP (xs.getD 0 .pundefined)),
                 jsParseIntP (xs.getD 1 .pundefined)]
      | _ => v)
  | "tuple<uuid,text>" => some (fun v =>
      match v with
      | .varr xs =>
        .vtuple [xs.getD 0 .pundefined, .pstr (jsStringP (xs.getD 1 .pundefined))]
      | _ => v)
  | "tuple<text,text,int>" => some (fun v =>
      match v with
      | .varr xs =>
        .vtuple [.pstr (jsStringP (xs.getD 0 .pundefined)),
                 .pstr (jsStringP (xs.getD 1 .pundefined)),
                 jsParseIntP (xs.getD 2 .pundefined)]
      | _ => v)
  | "json" => some (fun v =>
      match v with
      | .prim (.pstr _) => v
      | _ => jsonStringifyV v)
  | _ => none

/-- Embedding of `TypeConverter.convert`: dispatch through the converter map; an
unrecognized tag passes the value through unchanged. -/
def convert (value : Value) (type : String) : Value :=
  match converterFor type with
  | some f => f value
  | none => value

/-- Embedding of `TypeConverter.getFieldType`: bare tag, or the `type` of a structured
spec. -/
def getFieldType : FieldDef → String
  | .simple t => t
  | .detailed d => d.type

/-- Evaluate a field default at fill time: a static value, or the producer
function invoked. -/
def evalDefault : DefaultVal → Value
  | .val v => v
  | .fn f => f ()

/-- First loop of `TypeConverter.convertObject`: convert every key present
in the input.  `fields[key]` being `undefined` (a key of `data` not
declared in `fields`) makes `getFieldType` throw a TypeError in JS,
modelled by `none`. -/
def convertEntries : List (String × Value) → List (String × FieldDef) → Row → Option Row
  | [], _, result => some result
  | (key, value) :: rest, fields, result =>
    match fields.lookup key with
    | some fieldDef =>
      let type := getFieldType fieldDef
      if type ≠ "" then
        convertEntries rest fields (setK result key (convert value type))
      else
        convertEntries rest fields (setK result key value)
    | none => none

/-- Inner conditional of the identifier-generation step: generate when the
declared type is one of the ID families. -/
def idFill (result : Row) (fieldName : String) (type : String) : Row :=
  if type = "uuid" ∨ type = "nanoid" ∨ type = "timeuuid" then
    setK result fieldName (convert vundefined type)
  else result

/-- Default-application step of the second `convertObject` loop:
`typeof fieldDef === 'object' && fieldDef.default !== undefined &&
result[fieldName] === undefined`. -/
def defaultFill (result : Row) (fieldName : String) (fieldDef : FieldDef) : Row :=
  match fieldDef with
  | .detailed d =>
    match d.default with
    | some dv =>
      if getK result fieldName = vundefined then
        setK result fieldName (evalDefault dv)
      else result
    | none => result
  | .simple _ => result

/-- Body of the second loop of `TypeConverter.convertObject` for one
declared field: generate an identifier when the current value is falsy
(`!result[fieldName]`) and the type is an ID family, then apply the
declared default when the value is still `undefined`. -/
def completeEntry (result : Row) (fieldName : String) (fieldDef : FieldDef) : Row :=
  defaultFill
    (if !truthy (getK result fieldName) then
      idFill result fieldName (getFieldType fieldDef)
    else result)
    fieldName fieldDef

/-- Second loop of `TypeConverter.convertObject` over all declared fields. -/
def completeFields (result : Row) : List (String × FieldDef) → Row
  | [] => result
  | (fieldName, fieldDef) :: rest =>
    completeFields (completeEntry result fieldName fieldDef) rest

/-- Embedding of `TypeConverter.convertObject` (src/converter, compiled lines 11-35):
convert the present keys, then fill generated identifiers and defaults for
the declared fields. -/
def convertObject (data : Row) (fields : List (String × FieldDef)) : Option Row :=
  match convertEntries data fields [] with
  | some result => some (completeFields result fields)
  | none => none

/-- Embedding of `TypeConverter.getCassandraType` (src/converter, compiled lines 42-84):
the DDL type-name lookup `typeMap[type] || 'text'`. -/
def getCassandraType (type : String) : String :=
  match type with
  | "uuid" => "uuid"
  | "timeuuid" => "timeuuid"
  | "nanoid" => "text"
  | "text" => "text"
  | "ascii" => "ascii"
  | "varchar" => "varchar"
  | "int" => "int"
  | "bigint" => "bigint"
  | "smallint" => "smallint"
  | "tinyint" => "tinyint"
  | "varint" => "varint"
  | "counter" => "counter"
  | "float" => "float"
  | "double" => "double"
  | "decimal" => "decimal"
  | "boolean" => "boolean"
  | "timestamp" => "timestamp"
  | "date" => "date"
  | "time" => "time"
  | "duration" => "duration"
  | "blob" => "blob"
  | "inet" => "inet"
  | "set<text>" => "set<text>"
  | "set<int>" => "set<int>"
  | "set<uuid>" => "set<uuid>"
  | "set<timestamp>" => "set<timestamp>"
  | "list<text>" => "list<text>"
  | "list<int>" => "list<int>"
  | "list<uuid>" => "list<uuid>"
  | "list<timestamp>" => "list<timestamp>"
  | "map<text,text>" => "map<text,text>"
  | "map<text,int>" => "map<text,int>"
  | "map<int,text>" => "map<int,text>"
  | "map<uuid,text>" => "map<uuid,text>"
  | "tuple<text,int>" => "tuple<text,int>"
  | "tuple<uuid,text>" => "tuple<uuid,text>"
  | "tuple<text,text,int>" => "tuple<text,text,int>"
  | "json" => "text"
  | _ => "text"

end TypeConverter

/-- The store: the rows of the model's single table. -/
abbrev Store := List Row

/-- A CQL statement issued through `client.execute`.  Every statement of a
model targets that model's single table (`this.keyspace.this.tableName`). -/
inductive Statement where
  /-- Embedding of `SELECT * FROM t [WHERE k1 = ? AND ...]` — built by `find`. -/
  | selectAll (whereC : Row)
  /-- Embedding of `SELECT * FROM t WHERE field = ? LIMIT 1` (with or without
  `ALLOW FILTERING`) — built by `findByUniqueField`. -/
  | selectByField (field : String) (value : Value)
  /-- Embedding of `INSERT INTO t (fields) VALUES (...)` — built by `create`. -/
  | insert (fields : List String) (values : List Value)
  /-- Embedding of `UPDATE t SET ... WHERE ...` — built by `update`. -/
  | update (setC : Row) (whereC : Row)
  deriving DecidableEq, Repr

/-- Does this statement mutate the table? -/
def isWriteStmt : Statement → Bool
  | .insert _ _ => true
  | .update _ _ => true
  | _ => false

/-- A row satisfies an equality-conjunction `where` map. -/
def matchesWhere (whereC : Row) (r : Row) : Bool :=
  whereC.all (fun e => getK r e.1 == e.2)

/-- Embedding of `[...new Set(arr)]`: deduplication keeping first occurrences. -/
def dedupFirstAux (seen : List String) : List String → List String
  | [] => []
  | x :: xs =>
    if x ∈ seen then dedupFirstAux seen xs
    else x :: dedupFirstAux (x :: seen) xs

/-- Embedding of `[...new Set(arr)]` on a string array. -/
def dedupFirst (l : List String) : List String := dedupFirstAux [] l

namespace CassandraModel

/-- Embedding of `CassandraModel.getUniqueFields` (src/client, lines 250-266): the
schema-level `unique` list, then every structured field spec with a truthy
`unique`, deduplicated keeping first occurrences. -/
def getUniqueFields (schema : ModelSchema) : List String :=
  dedupFirst
    ((match schema.unique with
      | some us => us
      | none => []) ++
     (schema.fields.filterMap (fun e =>
        match e.2 with
        | .detailed d => if d.unique then some e.1 else none
        | .simple _ => none)))

/-- Embedding of `CassandraModel.findByUniqueField` (src/client, lines 268-281): an
equality lookup on one field limited to one row.  The indexed lookup and
the `ALLOW FILTERING` fallback of the `try/catch` return the same rows;
both are modelled by this one read. -/
def findByUniqueField (store : Store) (field : String) (value : Value) :
    Option Row :=
  (store.filter (fun r => getK r field == value)).head?

/-- The loop body of `CassandraModel.checkUniqueConstraints` over the
computed unique-field list: skip fields not present (`!== undefined`) in
the input; look the value up; fail unless the found row's `id` attribute
equals a truthy `excludeId`.  Returns the outcome and the reads executed. -/
def checkUniqueFieldsGo (store : Store) (data : Row) (excludeId : Value) :
    List String → Except String Unit × List Statement
  | [] => (.ok (), [])
  | field :: rest =>
    if isUndefined (getK data field) then
      checkUniqueFieldsGo store data excludeId rest
    else
      let stmt := Statement.selectByField field (getK data field)
      match findByUniqueField store field (getK data field) with
      | some existing =>
        if !truthy excludeId || !(getK existing "id" == excludeId) then
          (.error (field ++ " '" ++ jsString (getK data field) ++ "' already exists"),
           [stmt])
        else
          ((checkUniqueFieldsGo store data excludeId rest).1,
           stmt :: (checkUniqueFieldsGo store data excludeId rest).2)
      | none =>
        ((checkUniqueFieldsGo store data excludeId rest).1,
         stmt :: (checkUniqueFieldsGo store data excludeId rest).2)

/-- Embedding of `CassandraModel.checkUniqueConstraints` (src/client, lines 237-248).
A missing `excludeId` argument is JS `undefined` (`vundefined`). -/
def checkUniqueConstraints (schema : ModelSchema) (store : Store) (data : Row)
    (excludeId : Value) : Except String Unit × List Statement :=
  checkUniqueFieldsGo store data excludeId (getUniqueFields schema)

/-- Result of one model operation: the returned value or thrown error, the
statements executed against the table in order, and the store afterwards. -/
structure OpResult (α : Type) where
  result : Except String α
  trace : List Statement
  store : Store

/-- Do two rows agree on every primary-key field? -/
def rowKeyMatches (key : List String) (conv r : Row) : Bool :=
  key.all (fun k => getK r k == getK conv k)

/-- Overwrite the fields of `r` with the entries of `conv`. -/
def overwriteRow (r conv : Row) : Row :=
  conv.foldl (fun acc e => setK acc e.1 e.2) r

/-- Store semantics of the INSERT statement: Cassandra INSERT is an upsert
on the primary key — modelled as overwrite-or-append.  (No claim depends
on the post-write store; failure paths never reach this.) -/
def insertRow (schema : ModelSchema) (store : Store) (conv : Row) : Store :=
  if store.any (rowKeyMatches schema.key conv) then
    store.map (fun r => if rowKeyMatches schema.key conv r then overwriteRow r conv else r)
  else store ++ [conv]

/-- Store semantics of the UPDATE statement: set the given columns on every
row matching the `where` conjunction.  (No claim depends on the post-write
store; failure paths never reach this.) -/
def applyUpdate (store : Store) (whereC setC : Row) : Store :=
  store.map (fun r => if matchesWhere whereC r then overwriteRow r setC else r)

/-- Embedding of `CassandraModel.create` (src/client, lines 142-162): validate, check
uniqueness, convert, insert, return the converted record.  A validation
failure throws the joined message before any statement is executed; a
TypeError from `convertObject` (undeclared input key) is modelled by its
error message. -/
def create (schema : ModelSchema) (store : Store) (data : Row) : OpResult Row :=
  let errors := Validator.validate data schema.fields false
  if errors = [] then
    match checkUniqueConstraints schema store data vundefined with
    | (.error e, tr) => ⟨.error e, tr, store⟩
    | (.ok _, tr) =>
      match TypeConverter.convertObject data schema.fields with
      | some converted =>
        ⟨.ok converted,
         tr ++ [Statement.insert (converted.map Prod.fst) (converted.map Prod.snd)],
         insertRow schema store converted⟩
      | none => ⟨.error "TypeError: fields[key] is undefined", tr, store⟩
  else
    ⟨.error ("Validation failed: " ++ String.intercalate ", " errors), [], store⟩

/-- Embedding of `CassandraModel.find` (src/client, lines 164-176): rows matching the
equality conjunction (all rows when no `where` is given). -/
def findRows (store : Store) (whereC : Option Row) : List Row :=
  match whereC with
  | some w => store.filter (matchesWhere w)
  | none => store

/-- Embedding of `CassandraModel.findOne` (src/client, lines 178-181):
`results[0] || null`. -/
def findOneRow (store : Store) (whereC : Row) : Option Row :=
  (findRows store (some whereC)).head?

/-- Embedding of `CassandraModel.update` (src/client, lines 183-214): validate in update
mode, resolve the current record by `findOne(where)`, check uniqueness
excluding `currentRecord.id`, convert, strip primary-key fields from the
converted set, then execute the UPDATE statement. -/
def update (schema : ModelSchema) (store : Store) (data whereC : Row) :
    OpResult Unit :=
  let errors := Validator.validate data schema.fields true
  if errors = [] then
    let findStmt := Statement.selectAll whereC
    let uniqueStep : Except String Unit × List Statement :=
      match findOneRow store whereC with
      | some currentRecord =>
        checkUniqueConstraints schema store data (getK currentRecord "id")
      | none => (.ok (), [])
    match uniqueStep with
    | (.error e, tr) => ⟨.error e, findStmt :: tr, store⟩
    | (.ok _, tr) =>
      match TypeConverter.convertObject data schema.fields with
      | some converted =>
        let updateData := converted.filter (fun e => !(schema.key.contains e.1))
        ⟨.ok (),
         findStmt :: tr ++ [Statement.update updateData whereC],
         applyUpdate store whereC updateData⟩
      | none => ⟨.error "TypeError: fields[key] is undefined", findStmt :: tr, store⟩
  else
    ⟨.error ("Validation failed: " ++ String.intercalate ", " errors), [], store⟩

end CassandraModel

/-- The value stored by the first `convertObject` loop for a key supplied in
the input: the converted value when the declared type tag is a nonempty
string (`if (type)`), the raw value otherwise. -/
def loop1Value (v : Value) (fd : FieldDef) : Value :=
  if TypeConverter.getFieldType fd ≠ "" then
    TypeConverter.convert v (TypeConverter.getFieldType fd)
  else v

/-- Fixture: a unique text field (the `email` of the test schemas). -/
def emailFieldDef : FieldDefinition := { type := "text", unique := true }

/-- Fixture: a schema whose primary-key field is named `key`, not `id`
(schema-shape allowed by `ModelSchema`; the docs' products example uses
arbitrary key names). -/
def schemaKeyPk : ModelSchema :=
  { fields := [("key", FieldDef.simple "nanoid"), ("email", FieldDef.detailed emailFieldDef)],
    key := ["key"] }

/-- Fixture: the stored row for the `schemaKeyPk` scenarios. -/
def rowKeyPk : Row := [("key", vstr "k1"), ("email", vstr "x")]

/-- Fixture: the same schema with its primary-key field named `id`
(string-valued `nanoid` identifiers, which JS compares by value). -/
def schemaIdPk : ModelSchema :=
  { fields := [("id", FieldDef.simple "nanoid"), ("email", FieldDef.detailed emailFieldDef)],
    key := ["id"] }

/-- Fixture: first stored row for the `schemaIdPk` scenarios. -/
def rowIdA : Row := [("id", vstr "n1"), ("email", vstr "x")]

/-- Fixture: second stored row for the `schemaIdPk` scenarios. -/
def rowIdB : Row := [("id", vstr "n2"), ("email", vstr "y")]

/-- Fixture: the spec §8 scenario schema — generated uuid `id`, required
unique `email`. -/
def reqSchema : ModelSchema :=
  { fields := [("id", FieldDef.simple "uuid"),
               ("email", FieldDef.detailed
                 { type := "text", unique := true,
                   validate := some { required := true, isEmail := true } })],
    key := ["id"] }

section Lemmas

theorem getK_cons (k' : String) (v' : Value) (rest : Row) (k : String) :
    getK ((k', v') :: rest) k = if k' = k then v' else getK rest k := by
  simp only [getK, List.lookup]
  by_cases h : k = k'
  · subst h; simp
  · have hb : (k == k') = false := by simpa using h
    rw [hb, if_neg (fun h2 => h h2.symm)]

theorem getK_nil (k : String) : getK [] k = vundefined := rfl

theorem getK_setK_self (r : Row) (k : String) (v : Value) :
    getK (setK r k v) k = v := by
  induction r with
  | nil => simp [setK, getK_cons]
  | cons e rest ih =>
    obtain ⟨k', v'⟩ := e
    by_cases h : k' = k
    · subst h; simp [setK, getK_cons]
    · simp [setK, h, getK_cons, ih]

theorem getK_setK_ne (r : Row) (k k' : String) (v : Value) (h : k ≠ k') :
    getK (setK r k v) k' = getK r k' := by
  induction r with
  | nil => simp [setK, getK_cons, getK_nil, h]
  | cons e rest ih =>
    obtain ⟨k'', v''⟩ := e
    by_cases h2 : k'' = k
    · subst h2; simp [setK, getK_cons, h]
    · simp [setK, h2, getK_cons, ih]

theorem truthy_ne_vundefined {v : Value} (h : truthy v = true) : v ≠ vundefined := by
  intro he; subst he; simp [truthy, truthyP, vundefined] at h

theorem renderNum_zero : renderNum 0 = "0" := rfl

end Lemmas

/-- C9: the DDL type-name lookup maps both `nanoid` and `json` to the plain
text native type, while `uuid` maps to a type different from both. -/
theorem C9_theorem :
    TypeConverter.getCassandraType "nanoid" = TypeConverter.getCassandraType "json" ∧
    TypeConverter.getCassandraType "nanoid" = "text" ∧
    TypeConverter.getCassandraType "uuid" ≠ TypeConverter.getCassandraType "nanoid" ∧
    TypeConverter.getCassandraType "uuid" ≠ TypeConverter.getCassandraType "json" := by
  refine ⟨rfl, rfl, ?_, ?_⟩ <;> decide

/-- C3: when a field's rule set has `required` and its value is `undefined`,
`null` or the empty string, non-update validation emits exactly the one
violation `"<field> is required"` for that field, evaluating no other rule
of that field. -/
theorem C3_theorem (data : Row) (rest : List (String × FieldDef)) (name : String)
    (d : FieldDefinition) (rule : ValidationRule)
    (hrule : d.validate = some rule) (hreq : rule.required = true)
    (hempty : getK data name = vundefined ∨ getK data name = vnull ∨ getK data name = vstr "") :
    Validator.validate data ((name, FieldDef.detailed d) :: rest) false =
      (name ++ " is required") :: Validator.validate data rest false ∧
    Validator.validateField name (getK data name) rule = [name ++ " is required"] := by
  have hfield : Validator.validateField name (getK data name) rule = [name ++ " is required"] := by
    rcases hempty with h | h | h <;>
      rw [h] <;>
      simp [Validator.validateField, isEmptyVal, hreq, vundefined, vnull, vstr]
  refine ⟨?_, hfield⟩
  simp [Validator.validate, Validator.fieldContribution, Validator.getValidationRule,
    hrule, hfield]

/-- C3 witness: a concrete required field supplied as the empty string. -/
theorem C3_witness :
    Validator.validate [("email", vstr "")]
      [("email", FieldDef.detailed { type := "text", validate := some { required := true } }),
       ("name", FieldDef.simple "text")] false = ["email is required"] := by
  have h := C3_theorem [("email", vstr "")] [("name", FieldDef.simple "text")] "email"
    { type := "text", validate := some { required := true } } { required := true }
    rfl rfl (by right; right; rfl)
  simpa [Validator.validate, Validator.fieldContribution, Validator.getValidationRule] using h.1

/-- C4: in update mode, a field whose value is `undefined` is skipped and
contributes no violation at all; a field explicitly provided as `null` or
the empty string with a `required` rule contributes the required
violation. -/
theorem C4_theorem (data : Row) (rest : List (String × FieldDef)) (name : String)
    (fd : FieldDef) (rule : ValidationRule)
    (hrule : Validator.getValidationRule fd = some rule) :
    (getK data name = vundefined →
      Validator.validate data ((name, fd) :: rest) true = Validator.validate data rest true) ∧
    (rule.required = true → (getK data name = vnull ∨ getK data name = vstr "") →
      Validator.validate data ((name, fd) :: rest) true =
        (name ++ " is required") :: Validator.validate data rest true) := by
  constructor
  · intro h
    simp [Validator.validate, Validator.fieldContribution, hrule, h, isUndefined, vundefined]
  · intro hreq h
    have hfield : Validator.validateField name (getK data name) rule = [name ++ " is required"] := by
      rcases h with h | h <;>
        rw [h] <;>
        simp [Validator.validateField, isEmptyVal, hreq, vundefined, vnull, vstr]
    have hnotundef : isUndefined (getK data name) = false := by
      rcases h with h | h <;> rw [h] <;> rfl
    simp [Validator.validate, Validator.fieldContribution, hrule, hnotundef, hfield]

/-- C4 witness: an omitted required field yields nothing in update mode; the
same field provided as `null` yields the required violation. -/
theorem C4_witness :
    Validator.validate [] [("email", FieldDef.detailed { type := "text", validate := some { required := true } })] true = [] ∧
    Validator.validate [("email", vnull)] [("email", FieldDef.detailed { type := "text", validate := some { required := true } })] true = ["email is required"] := by
  constructor
  · have h := (C4_theorem [] [] "email"
      (FieldDef.detailed { type := "text", validate := some { required := true } })
      { required := true } rfl).1 rfl
    simpa [Validator.validate] using h
  · have h := (C4_theorem [("email", vnull)] [] "email"
      (FieldDef.detailed { type := "text", validate := some { required := true } })
      { required := true } rfl).2 rfl (Or.inl rfl)
    simpa [Validator.validate] using h

/-- C10: a string-length bound of zero is never enforced (the length checks
guard on the bound's truthiness, and `0` is falsy), while a numeric bound
of zero is enforced (the `min`/`max` checks guard on definedness only). -/
theorem C10_theorem (name : String) (s : String) (q : ℚ) :
    Validator.validateField name (vstr s) { maxLength := some 0 } = [] ∧
    Validator.validateField name (vstr s) { minLength := some 0 } = [] ∧
    (0 < q → Validator.validateField name (vnum q) { max := some 0 } =
      [name ++ " must be at most 0"]) ∧
    (q < 0 → Validator.validateField name (vnum q) { min := some 0 } =
      [name ++ " must be at least 0"]) := by
  refine ⟨?_, ?_, ?_, ?_⟩
  · by_cases h : s = ""
    · subst h; simp [Validator.validateField, isEmptyVal]
    · simp [Validator.validateField, isEmptyVal, vstr, vundefined, vnull, h]
  · by_cases h : s = ""
    · subst h; simp [Validator.validateField, isEmptyVal]
    · simp [Validator.validateField, isEmptyVal, vstr, vundefined, vnull, h]
  · intro hq
    simp [Validator.validateField, isEmptyVal, vnum, vundefined, vnull, vstr, hq,
      renderNum_zero, not_lt.mpr hq.le]
    rw [String.append_assoc]; rfl
  · intro hq
    simp [Validator.validateField, isEmptyVal, vnum, vundefined, vnull, vstr, hq,
      renderNum_zero, not_lt.mpr hq.le]
    rw [String.append_assoc]; rfl

/-- C10 witness: concrete evaluations with bound 0 — `maxLength: 0` silently
accepts a long string, `max: 0` rejects 1, `min: 0` rejects -1. -/
theorem C10_witness :
    Validator.validateField "name" (vstr "xyz") { maxLength := some 0 } = [] ∧
    Validator.validateField "name" (vstr "xyz") { minLength := some 0 } = [] ∧
    Validator.validateField "age" (vnum 1) { max := some 0 } = ["age must be at most 0"] ∧
    Validator.validateField "age" (vnum (-1)) { min := some 0 } = ["age must be at least 0"] :=
  ⟨( C10_theorem "name" "xyz" 0).1, ( C10_theorem "name" "xyz" 0).2.1,
   ( C10_theorem "age" "xyz" 1).2.2.1 (by norm_num),
   ( C10_theorem "age" "xyz" (-1)).2.2.2 (by norm_num)⟩

theorem convert_uuid (v : Value) :
    TypeConverter.convert v "uuid" = if truthy v then v else vid "uuid" 0 := rfl

theorem convert_nanoid (v : Value) :
    TypeConverter.convert v "nanoid" = if truthy v then v else vid "nanoid" 0 := rfl

theorem convert_timeuuid (v : Value) :
    TypeConverter.convert v "timeuuid" = if truthy v then v else vid "timeuuid" 0 := rfl

theorem convertEntries_single (name : String) (v : Value) (fd : FieldDef) :
    TypeConverter.convertEntries [(name, v)] [(name, fd)] [] =
      some [(name, loop1Value v fd)] := by
  have hl : ([(name, fd)].lookup name) = some fd := by simp
  simp only [TypeConverter.convertEntries, hl, loop1Value]
  split <;> simp [setK, TypeConverter.convertEntries]

theorem completeFields_single (acc : Row) (name : String) (fd : FieldDef) :
    TypeConverter.completeFields acc [(name, fd)] =
      TypeConverter.completeEntry acc name fd := rfl

theorem getK_single (name : String) (v : Value) : getK [(name, v)] name = v := by
  rw [getK_cons, if_pos rfl]

theorem setK_single (name : String) (v w : Value) :
    setK [(name, v)] name w = [(name, w)] := by simp [setK]

theorem defaultFill_of_ne_vundefined (acc : Row) (name : String) (fd : FieldDef)
    (h : getK acc name ≠ vundefined) :
    TypeConverter.defaultFill acc name fd = acc := by
  cases fd with
  | simple t => rfl
  | detailed d =>
    simp only [TypeConverter.defaultFill]
    cases d.default with
    | none => rfl
    | some dv => exact if_neg h

theorem idFill_getK_other (acc : Row) (name t : String) (k : String) (h : name ≠ k) :
    getK (TypeConverter.idFill acc name t) k = getK acc k := by
  simp only [TypeConverter.idFill]
  by_cases hb : t = "uuid" ∨ t = "nanoid" ∨ t = "timeuuid"
  · rw [if_pos hb, getK_setK_ne _ _ _ _ h]
  · rw [if_neg hb]

theorem defaultFill_getK_other (acc : Row) (name : String) (fd : FieldDef)
    (k : String) (h : name ≠ k) :
    getK (TypeConverter.defaultFill acc name fd) k = getK acc k := by
  cases fd with
  | simple t => rfl
  | detailed d =>
    simp only [TypeConverter.defaultFill]
    cases d.default with
    | none => rfl
    | some dv =>
      show getK (if getK acc name = vundefined then
        setK acc name (TypeConverter.evalDefault dv) else acc) k = getK acc k
      by_cases hb : getK acc name = vundefined
      · rw [if_pos hb, getK_setK_ne _ _ _ _ h]
      · rw [if_neg hb]

/-- C2 counterexample: an ID-typed field supplied with an explicit `null`
(or empty string) IS overwritten by a freshly generated identifier — the
ID converters are `v || generate()`, and the completion loop's guard is
`!result[fieldName]` — contradicting the claim that a present `null`/empty
value is left alone. -/
theorem C2_counterexample :
    TypeConverter.convertObject [("id", vnull)] [("id", FieldDef.simple "uuid")] =
      some [("id", vid "uuid" 0)] ∧
    TypeConverter.convertObject [("code", vstr "")]
      [("code", FieldDef.detailed { type := "nanoid" })] =
      some [("code", vid "nanoid" 0)] ∧
    vid "uuid" 0 ≠ vnull ∧ vid "nanoid" 0 ≠ vstr "" := by
  refine ⟨rfl, rfl, ?_, ?_⟩ <;> decide

/-- C2 as amended: in `convertObject`, identifier generation still precedes
default application and defaults fill only `undefined` results (an explicit
`null`/empty string is never replaced by the declared default); but for the
ID families (uuid/nanoid/timeuuid) any falsy supplied value — `undefined`,
`null`, the empty string, `0`, `false`, `NaN` — is treated as missing and
replaced by a freshly generated identifier. -/
theorem C2_theorem (name : String) (d : FieldDefinition) (v : Value) :
    ((d.type = "uuid" ∨ d.type = "nanoid" ∨ d.type = "timeuuid") →
      TypeConverter.convertObject [(name, v)] [(name, FieldDef.detailed d)] =
        some [(name, if truthy v then v else vid d.type 0)]) ∧
    (¬(d.type = "uuid" ∨ d.type = "nanoid" ∨ d.type = "timeuuid") →
      TypeConverter.convertObject [(name, v)] [(name, FieldDef.detailed d)] =
        some [(name,
          match d.default with
          | some dv =>
            if loop1Value v (FieldDef.detailed d) = vundefined then
              TypeConverter.evalDefault dv
            else loop1Value v (FieldDef.detailed d)
          | none => loop1Value v (FieldDef.detailed d))]) := by
  constructor
  · intro hid
    have hconv : TypeConverter.convertObject [(name, v)] [(name, FieldDef.detailed d)] =
        some (TypeConverter.completeEntry [(name, loop1Value v (FieldDef.detailed d))]
          name (FieldDef.detailed d)) := by
      simp [TypeConverter.convertObject, convertEntries_single, completeFields_single]
    rw [hconv]
    have hlv : loop1Value v (FieldDef.detailed d) =
        if truthy v then v else vid d.type 0 := by
      rcases hid with h | h | h <;>
        simp [loop1Value, TypeConverter.getFieldType, h, convert_uuid, convert_nanoid,
          convert_timeuuid]
    rw [hlv]
    have htr : truthy (if truthy v then v else vid d.type 0) = true := by
      by_cases hv : truthy v = true
      · rw [if_pos hv]; exact hv
      · rw [if_neg hv]; rfl
    have hne : (if truthy v then v else vid d.type 0) ≠ vundefined := truthy_ne_vundefined htr
    have hcond : (!truthy (getK [(name, if truthy v then v else vid d.type 0)] name)) = false := by
      rw [getK_single, htr]; rfl
    simp only [TypeConverter.completeEntry, hcond, Bool.false_eq_true, if_false]
    exact congrArg some (defaultFill_of_ne_vundefined _ _ _ (by rw [getK_single]; exact hne))
  · intro hnid
    have hconv : TypeConverter.convertObject [(name, v)] [(name, FieldDef.detailed d)] =
        some (TypeConverter.completeEntry [(name, loop1Value v (FieldDef.detailed d))]
          name (FieldDef.detailed d)) := by
      simp [TypeConverter.convertObject, convertEntries_single, completeFields_single]
    rw [hconv]
    have hty : ¬(TypeConverter.getFieldType (FieldDef.detailed d) = "uuid" ∨
        TypeConverter.getFieldType (FieldDef.detailed d) = "nanoid" ∨
        TypeConverter.getFieldType (FieldDef.detailed d) = "timeuuid") := hnid
    have hgen : (if (!truthy (getK [(name, loop1Value v (FieldDef.detailed d))] name)) = true then
        TypeConverter.idFill [(name, loop1Value v (FieldDef.detailed d))] name
          (TypeConverter.getFieldType (FieldDef.detailed d))
      else [(name, loop1Value v (FieldDef.detailed d))]) =
        [(name, loop1Value v (FieldDef.detailed d))] := by
      by_cases hb : (!truthy (getK [(name, loop1Value v (FieldDef.detailed d))] name)) = true
      · rw [if_pos hb]
        simp only [TypeConverter.idFill]
        rw [if_neg hty]
      · rw [if_neg hb]
    simp only [TypeConverter.completeEntry, hgen]
    simp only [TypeConverter.defaultFill, getK_single]
    cases hd : d.default with
    | none => rfl
    | some dv =>
      show some (if loop1Value v (FieldDef.detailed d) = vundefined then
          setK [(name, loop1Value v (FieldDef.detailed d))] name (TypeConverter.evalDefault dv)
        else [(name, loop1Value v (FieldDef.detailed d))]) =
        some [(name, if loop1Value v (FieldDef.detailed d) = vundefined then
          TypeConverter.evalDefault dv else loop1Value v (FieldDef.detailed d))]
      by_cases hv : loop1Value v (FieldDef.detailed d) = vundefined
      · rw [if_pos hv, if_pos hv, setK_single]
      · rw [if_neg hv, if_neg hv]

/-- C2 witness: a uuid field supplied as `null` comes back generated; a text
field with a declared default supplied as `null` keeps the converted null
(the string "null") rather than the default. -/
theorem C2_witness :
    TypeConverter.convertObject [("id", vnull)]
      [("id", FieldDef.detailed { type := "uuid" })] = some [("id", vid "uuid" 0)] ∧
    TypeConverter.convertObject [("x", vnull)]
      [("x", FieldDef.detailed { type := "text", default := some (.val (vstr "D")) })] =
      some [("x", vstr "null")] := by
  constructor
  · have h := ( C2_theorem "id" { type := "uuid" } vnull).1 (Or.inl rfl)
    simpa [truthy, truthyP, vnull] using h
  · have h := ( C2_theorem "x"
      { type := "text", default := some (.val (vstr "D")) } vnull).2 (by simp)
    simpa [loop1Value, TypeConverter.getFieldType, TypeConverter.convert,
      TypeConverter.converterFor, jsString, jsStringP, vnull, vstr, vundefined] using h


theorem completeFields_cons (acc : Row) (name : String) (fd : FieldDef)
    (rest : List (String × FieldDef)) :
    TypeConverter.completeFields acc ((name, fd) :: rest) =
      TypeConverter.completeFields (TypeConverter.completeEntry acc name fd) rest := rfl

theorem completeEntry_getK_other (acc : Row) (name : String) (fd : FieldDef)
    (k : String) (h : name ≠ k) :
    getK (TypeConverter.completeEntry acc name fd) k = getK acc k := by
  simp only [TypeConverter.completeEntry]
  by_cases hb : (!truthy (getK acc name)) = true
  · rw [if_pos hb, defaultFill_getK_other _ _ _ _ h, idFill_getK_other _ _ _ _ h]
  · rw [if_neg hb, defaultFill_getK_other _ _ _ _ h]

theorem completeEntry_of_truthy (acc : Row) (name : String) (fd : FieldDef)
    (h : truthy (getK acc name) = true) :
    TypeConverter.completeEntry acc name fd = acc := by
  simp only [TypeConverter.completeEntry, h, Bool.not_true, Bool.false_eq_true, if_false]
  exact defaultFill_of_ne_vundefined _ _ _ (truthy_ne_vundefined h)

theorem completeEntry_truthy_preserve (acc : Row) (name : String) (fd : FieldDef)
    (k : String) (h : truthy (getK acc k) = true) :
    truthy (getK (TypeConverter.completeEntry acc name fd) k) = true := by
  by_cases hn : name = k
  · subst hn; rw [completeEntry_of_truthy _ _ _ h]; exact h
  · rw [completeEntry_getK_other _ _ _ _ hn]; exact h

theorem convert_vundef_id (t : String)
    (hid : t = "uuid" ∨ t = "nanoid" ∨ t = "timeuuid") :
    TypeConverter.convert vundefined t = vid t 0 := by
  rcases hid with h | h | h <;> subst h <;> rfl

theorem vid_ne_vundefined (kind : String) (tag : ℕ) : vid kind tag ≠ vundefined := by
  simp [vid, vundefined]

theorem completeEntry_id_getK (acc : Row) (name : String) (fd : FieldDef)
    (htv : truthy (getK acc name) = false)
    (hid : TypeConverter.getFieldType fd = "uuid" ∨
           TypeConverter.getFieldType fd = "nanoid" ∨
           TypeConverter.getFieldType fd = "timeuuid") :
    getK (TypeConverter.completeEntry acc name fd) name =
      vid (TypeConverter.getFieldType fd) 0 := by
  simp only [TypeConverter.completeEntry, htv, Bool.not_false, if_true]
  have hset : getK (TypeConverter.idFill acc name (TypeConverter.getFieldType fd)) name =
      vid (TypeConverter.getFieldType fd) 0 := by
    simp only [TypeConverter.idFill, if_pos hid, convert_vundef_id _ hid, getK_setK_self]
  rw [defaultFill_of_ne_vundefined _ _ _ (by rw [hset]; exact vid_ne_vundefined _ _), hset]

theorem completeEntry_id_truthy (acc : Row) (name : String) (fd : FieldDef)
    (hid : TypeConverter.getFieldType fd = "uuid" ∨
           TypeConverter.getFieldType fd = "nanoid" ∨
           TypeConverter.getFieldType fd = "timeuuid") :
    truthy (getK (TypeConverter.completeEntry acc name fd) name) = true := by
  by_cases htv : truthy (getK acc name) = true
  · rw [completeEntry_of_truthy _ _ _ htv]; exact htv
  · have htv' : truthy (getK acc name) = false := by simpa using htv
    rw [completeEntry_id_getK _ _ _ htv' hid]; rfl

theorem completeFields_truthy_preserve (fields : List (String × FieldDef)) (acc : Row)
    (k : String) (h : truthy (getK acc k) = true) :
    truthy (getK (TypeConverter.completeFields acc fields) k) = true := by
  induction fields generalizing acc with
  | nil => exact h
  | cons e rest ih =>
    obtain ⟨name, fd⟩ := e
    exact ih _ (completeEntry_truthy_preserve _ _ _ _ h)

theorem completeFields_mem_id_truthy (fields : List (String × FieldDef)) (acc : Row)
    (name : String) (fd : FieldDef)
    (hmem : (name, fd) ∈ fields)
    (hid : TypeConverter.getFieldType fd = "uuid" ∨
           TypeConverter.getFieldType fd = "nanoid" ∨
           TypeConverter.getFieldType fd = "timeuuid") :
    truthy (getK (TypeConverter.completeFields acc fields) name) = true := by
  induction fields generalizing acc with
  | nil => cases hmem
  | cons e rest ih =>
    obtain ⟨k', fd'⟩ := e
    rcases List.mem_cons.mp hmem with he | he
    · injection he with h1 h2
      subst h1; subst h2
      exact completeFields_truthy_preserve rest _ name
        (completeEntry_id_truthy _ _ _ hid)
    · exact ih _ he

theorem completeFields_getK_not_mem (fields : List (String × FieldDef)) (acc : Row)
    (name : String) (h : name ∉ fields.map Prod.fst) :
    getK (TypeConverter.completeFields acc fields) name = getK acc name := by
  induction fields generalizing acc with
  | nil => rfl
  | cons e rest ih =>
    obtain ⟨k', fd'⟩ := e
    simp only [List.map_cons, List.mem_cons] at h
    push_neg at h
    rw [completeFields_cons, ih _ h.2,
      completeEntry_getK_other _ _ _ _ (fun he => h.1 he.symm)]

theorem convertEntries_getK_not_mem (data : List (String × Value))
    (fields : List (String × FieldDef)) (acc res : Row) (name : String)
    (h : name ∉ data.map Prod.fst)
    (hres : TypeConverter.convertEntries data fields acc = some res) :
    getK res name = getK acc name := by
  induction data generalizing acc with
  | nil =>
    simp only [TypeConverter.convertEntries, Option.some.injEq] at hres
    rw [← hres]
  | cons e rest ih =>
    obtain ⟨key, v⟩ := e
    simp only [List.map_cons, List.mem_cons] at h
    push_neg at h
    have hkey : key ≠ name := fun he => h.1 he.symm
    simp only [TypeConverter.convertEntries] at hres
    cases hf : fields.lookup key with
    | none => simp [hf] at hres
    | some fd =>
      simp only [hf] at hres
      by_cases ht : TypeConverter.getFieldType fd ≠ ""
      · rw [if_pos ht] at hres
        rw [ih _ h.2 hres, getK_setK_ne _ _ _ _ hkey]
      · rw [if_neg ht] at hres
        rw [ih _ h.2 hres, getK_setK_ne _ _ _ _ hkey]

theorem completeFields_gen_of_absent (fields : List (String × FieldDef)) (acc : Row)
    (name : String) (fd : FieldDef)
    (hnodup : (fields.map Prod.fst).Nodup)
    (hmem : (name, fd) ∈ fields)
    (hid : TypeConverter.getFieldType fd = "uuid" ∨
           TypeConverter.getFieldType fd = "nanoid" ∨
           TypeConverter.getFieldType fd = "timeuuid")
    (hu : getK acc name = vundefined) :
    getK (TypeConverter.completeFields acc fields) name =
      vid (TypeConverter.getFieldType fd) 0 := by
  induction fields generalizing acc with
  | nil => cases hmem
  | cons e rest ih =>
    obtain ⟨k', fd'⟩ := e
    simp only [List.map_cons, List.nodup_cons] at hnodup
    rcases List.mem_cons.mp hmem with he | he
    · injection he with h1 h2
      subst h1; subst h2
      rw [completeFields_cons, completeFields_getK_not_mem rest _ name hnodup.1]
      exact completeEntry_id_getK _ _ _ (by rw [hu]; rfl) hid
    · have hk : k' ≠ name := fun hkeq =>
        hnodup.1 (by rw [hkeq]; exact List.mem_map.mpr ⟨(name, fd), he, rfl⟩)
      rw [completeFields_cons]
      exact ih _ hnodup.2 he (by rw [completeEntry_getK_other _ _ _ _ hk]; exact hu)

/-- C8: the output of `convertObject` always carries a present (truthy,
hence defined) value for every declared uuid/nanoid/timeuuid field; when
such a field is absent from the input, the output value is the freshly
generated identifier of the declared kind. -/
theorem C8_theorem (data : Row) (fields : List (String × FieldDef)) (out : Row)
    (name : String) (fd : FieldDef)
    (hmem : (name, fd) ∈ fields)
    (hid : TypeConverter.getFieldType fd = "uuid" ∨
           TypeConverter.getFieldType fd = "nanoid" ∨
           TypeConverter.getFieldType fd = "timeuuid")
    (hout : TypeConverter.convertObject data fields = some out) :
    truthy (getK out name) = true ∧ getK out name ≠ vundefined ∧
    (name ∉ data.map Prod.fst → (fields.map Prod.fst).Nodup →
      getK out name = vid (TypeConverter.getFieldType fd) 0) := by
  simp only [TypeConverter.convertObject] at hout
  cases hres : TypeConverter.convertEntries data fields [] with
  | none => rw [hres] at hout; cases hout
  | some res =>
    rw [hres] at hout
    obtain rfl : TypeConverter.completeFields res fields = out := by
      simpa using hout
    have h1 := completeFields_mem_id_truthy fields res name fd hmem hid
    refine ⟨h1, truthy_ne_vundefined h1, ?_⟩
    intro habs hnodup
    have hu : getK res name = vundefined := by
      rw [convertEntries_getK_not_mem data fields [] res name habs hres]; rfl
    exact completeFields_gen_of_absent fields res name fd hnodup hmem hid hu

/-- C8 witness: the spec §8 schema — creating from `{email}` alone yields a
generated uuid `id` in the converted output. -/
theorem C8_witness :
    truthy (getK [("email", vstr "a@b.com"), ("id", vid "uuid" 0)] "id") = true ∧
    getK [("email", vstr "a@b.com"), ("id", vid "uuid" 0)] "id" ≠ vundefined ∧
    ("id" ∉ ([("email", vstr "a@b.com")] : Row).map Prod.fst →
      (reqSchema.fields.map Prod.fst).Nodup →
      getK [("email", vstr "a@b.com"), ("id", vid "uuid" 0)] "id" =
        vid (TypeConverter.getFieldType (FieldDef.simple "uuid")) 0) :=
  C8_theorem [("email", vstr "a@b.com")] reqSchema.fields
    [("email", vstr "a@b.com"), ("id", vid "uuid" 0)] "id" (FieldDef.simple "uuid")
    (List.Mem.head _) (Or.inl rfl) rfl

theorem mem_dedupFirstAux (l : List String) (seen : List String) (x : String) :
    x ∈ dedupFirstAux seen l ↔ x ∈ l ∧ x ∉ seen := by
  induction l generalizing seen with
  | nil => simp [dedupFirstAux]
  | cons y ys ih =>
    simp only [dedupFirstAux]
    by_cases hy : y ∈ seen
    · rw [if_pos hy, ih]
      constructor
      · rintro ⟨hxs, hnot⟩; exact ⟨List.mem_cons_of_mem _ hxs, hnot⟩
      · rintro ⟨hor, hnot⟩
        rcases List.mem_cons.mp hor with rfl | hxs
        · exact absurd hy hnot
        · exact ⟨hxs, hnot⟩
    · rw [if_neg hy]
      simp only [List.mem_cons, ih]
      constructor
      · rintro (rfl | ⟨hxs, hnot⟩)
        · exact ⟨Or.inl rfl, hy⟩
        · exact ⟨Or.inr hxs, fun hs => hnot (Or.inr hs)⟩
      · rintro ⟨hor, hns⟩
        rcases hor with rfl | hxs
        · exact Or.inl rfl
        · by_cases hxy : x = y
          · exact Or.inl hxy
          · refine Or.inr ⟨hxs, ?_⟩
            rintro (h' | h')
            exacts [hxy h', hns h']

theorem mem_dedupFirst (l : List String) (x : String) :
    x ∈ dedupFirst l ↔ x ∈ l := by
  unfold dedupFirst
  rw [mem_dedupFirstAux]
  simp

theorem nodup_dedupFirstAux (l : List String) (seen : List String) :
    (dedupFirstAux seen l).Nodup := by
  induction l generalizing seen with
  | nil => exact List.nodup_nil
  | cons y ys ih =>
    simp only [dedupFirstAux]
    by_cases hy : y ∈ seen
    · rw [if_pos hy]; exact ih seen
    · rw [if_neg hy]
      refine List.nodup_cons.mpr ⟨?_, ih (y :: seen)⟩
      intro hmem
      exact ((mem_dedupFirstAux ys (y :: seen) y).mp hmem).2 (List.mem_cons_self _ _)

theorem nodup_dedupFirst (l : List String) : (dedupFirst l).Nodup :=
  nodup_dedupFirstAux l []


theorem go_cons_skipped (store : Store) (data : Row) (exclude : Value)
    (f : String) (rest : List String)
    (hu : isUndefined (getK data f) = true) :
    CassandraModel.checkUniqueFieldsGo store data exclude (f :: rest) =
      CassandraModel.checkUniqueFieldsGo store data exclude rest := by
  simp only [CassandraModel.checkUniqueFieldsGo, hu, if_true]

theorem go_cons_found (store : Store) (data : Row) (exclude : Value)
    (f : String) (rest : List String) (existing : Row)
    (hu : isUndefined (getK data f) = false)
    (hex : CassandraModel.findByUniqueField store f (getK data f) = some existing) :
    CassandraModel.checkUniqueFieldsGo store data exclude (f :: rest) =
      (if !truthy exclude || !(getK existing "id" == exclude) then
        (.error (f ++ " '" ++ jsString (getK data f) ++ "' already exists"),
         [Statement.selectByField f (getK data f)])
      else ((CassandraModel.checkUniqueFieldsGo store data exclude rest).1,
        Statement.selectByField f (getK data f) ::
          (CassandraModel.checkUniqueFieldsGo store data exclude rest).2)) := by
  simp only [CassandraModel.checkUniqueFieldsGo, hu, Bool.false_eq_true, if_false, hex]

theorem go_cons_notfound (store : Store) (data : Row) (exclude : Value)
    (f : String) (rest : List String)
    (hu : isUndefined (getK data f) = false)
    (hex : CassandraModel.findByUniqueField store f (getK data f) = none) :
    CassandraModel.checkUniqueFieldsGo store data exclude (f :: rest) =
      ((CassandraModel.checkUniqueFieldsGo store data exclude rest).1,
        Statement.selectByField f (getK data f) ::
          (CassandraModel.checkUniqueFieldsGo store data exclude rest).2) := by
  simp only [CassandraModel.checkUniqueFieldsGo, hu, Bool.false_eq_true, if_false, hex]

theorem checkUniqueFieldsGo_ok_iff (store : Store) (data : Row) (exclude : Value)
    (l : List String) :
    (CassandraModel.checkUniqueFieldsGo store data exclude l).1 = .ok () ↔
    ∀ f ∈ l, isUndefined (getK data f) = false →
      ∀ row, CassandraModel.findByUniqueField store f (getK data f) = some row →
        truthy exclude = true ∧ (getK row "id" == exclude) = true := by
  induction l with
  | nil => simp [CassandraModel.checkUniqueFieldsGo]
  | cons f rest ih =>
    by_cases hu : isUndefined (getK data f) = true
    · rw [go_cons_skipped store data exclude f rest hu, ih]
      constructor
      · intro h g hg hgu row hrow
        rcases List.mem_cons.mp hg with rfl | hg'
        · rw [hu] at hgu; cases hgu
        · exact h g hg' hgu row hrow
      · intro h g hg hgu row hrow
        exact h g (List.mem_cons_of_mem _ hg) hgu row hrow
    · have hu' : isUndefined (getK data f) = false := by simpa using hu
      cases hex : CassandraModel.findByUniqueField store f (getK data f) with
      | some existing =>
        rw [go_cons_found store data exclude f rest existing hu' hex]
        by_cases hcond : (!truthy exclude || !(getK existing "id" == exclude)) = true
        · rw [if_pos hcond]
          constructor
          · intro h; exact absurd h (by simp)
          · intro h
            exfalso
            obtain ⟨htr, hbeq⟩ := h f (List.mem_cons_self f rest) hu' existing hex
            rw [htr, hbeq] at hcond
            simp at hcond
        · rw [if_neg hcond]
          simp only [Bool.or_eq_true, Bool.not_eq_true', not_or] at hcond
          obtain ⟨htr', hbeq'⟩ := hcond
          have htr : truthy exclude = true := by simpa using htr'
          have hbeq : (getK existing "id" == exclude) = true := by simpa using hbeq'
          rw [ih]
          constructor
          · intro h g hg hgu row hrow
            rcases List.mem_cons.mp hg with rfl | hg'
            · rw [hex] at hrow
              injection hrow with hrow
              subst hrow
              exact ⟨htr, hbeq⟩
            · exact h g hg' hgu row hrow
          · intro h g hg hgu row hrow
            exact h g (List.mem_cons_of_mem _ hg) hgu row hrow
      | none =>
        rw [go_cons_notfound store data exclude f rest hu' hex, ih]
        constructor
        · intro h g hg hgu row hrow
          rcases List.mem_cons.mp hg with rfl | hg'
          · rw [hex] at hrow; cases hrow
          · exact h g hg' hgu row hrow
        · intro h g hg hgu row hrow
          exact h g (List.mem_cons_of_mem _ hg) hgu row hrow

theorem checkUniqueFieldsGo_error (store : Store) (data : Row) (exclude : Value)
    (l : List String) (msg : String)
    (herr : (CassandraModel.checkUniqueFieldsGo store data exclude l).1 = .error msg) :
    ∃ f ∈ l, isUndefined (getK data f) = false ∧
      ∃ row, CassandraModel.findByUniqueField store f (getK data f) = some row ∧
        (truthy exclude = false ∨ (getK row "id" == exclude) = false) ∧
        msg = f ++ " '" ++ jsString (getK data f) ++ "' already exists" := by
  induction l with
  | nil => simp [CassandraModel.checkUniqueFieldsGo] at herr
  | cons f rest ih =>
    by_cases hu : isUndefined (getK data f) = true
    · rw [go_cons_skipped store data exclude f rest hu] at herr
      obtain ⟨g, hg, h⟩ := ih herr
      exact ⟨g, List.mem_cons_of_mem _ hg, h⟩
    · have hu' : isUndefined (getK data f) = false := by simpa using hu
      cases hex : CassandraModel.findByUniqueField store f (getK data f) with
      | some existing =>
        rw [go_cons_found store data exclude f rest existing hu' hex] at herr
        by_cases hcond : (!truthy exclude || !(getK existing "id" == exclude)) = true
        · rw [if_pos hcond] at herr
          injection herr with herr
          refine ⟨f, List.mem_cons_self f rest, hu', existing, hex, ?_, herr.symm⟩
          simpa [Bool.or_eq_true, Bool.not_eq_true'] using hcond
        · rw [if_neg hcond] at herr
          obtain ⟨g, hg, h⟩ := ih herr
          exact ⟨g, List.mem_cons_of_mem _ hg, h⟩
      | none =>
        rw [go_cons_notfound store data exclude f rest hu' hex] at herr
        obtain ⟨g, hg, h⟩ := ih herr
        exact ⟨g, List.mem_cons_of_mem _ hg, h⟩

theorem checkUniqueFieldsGo_trace (store : Store) (data : Row) (exclude : Value)
    (l : List String) :
    ∀ st ∈ (CassandraModel.checkUniqueFieldsGo store data exclude l).2,
      isWriteStmt st = false := by
  induction l with
  | nil => simp [CassandraModel.checkUniqueFieldsGo]
  | cons f rest ih =>
    by_cases hu : isUndefined (getK data f) = true
    · rw [go_cons_skipped store data exclude f rest hu]; exact ih
    · have hu' : isUndefined (getK data f) = false := by simpa using hu
      cases hex : CassandraModel.findByUniqueField store f (getK data f) with
      | some existing =>
        rw [go_cons_found store data exclude f rest existing hu' hex]
        by_cases hcond : (!truthy exclude || !(getK existing "id" == exclude)) = true
        · rw [if_pos hcond]
          intro st hst
          rcases List.mem_singleton.mp hst with rfl
          rfl
        · rw [if_neg hcond]
          intro st hst
          rcases List.mem_cons.mp hst with rfl | hst'
          · rfl
          · exact ih st hst'
      | none =>
        rw [go_cons_notfound store data exclude f rest hu' hex]
        intro st hst
        rcases List.mem_cons.mp hst with rfl | hst'
        · rfl
        · exact ih st hst'

theorem except_unit_cases (e : Except String Unit) :
    e = .ok () ∨ ∃ msg, e = .error msg := by
  cases e with
  | ok u => cases u; exact Or.inl rfl
  | error msg => exact Or.inr ⟨msg, rfl⟩

theorem uniqueList_getD (o : Option (List String)) :
    (match o with | some us => us | none => []) = o.getD [] := by
  cases o <;> rfl

/-- C5: the set of fields checked for uniqueness is exactly the deduplicated
union of the schema-level `unique` list and the fields whose spec carries
`unique: true`; only fields present (not `undefined`) in the input are
looked up; on the create path (no exclusion key) the check fails exactly
when some such field's value is already held by a stored row, and the error
message is `"<field> '<value>' already exists"`. -/
theorem C5_theorem (schema : ModelSchema) (store : Store) (data : Row) :
    ((CassandraModel.getUniqueFields schema).Nodup ∧
     ∀ f, f ∈ CassandraModel.getUniqueFields schema ↔
       (f ∈ schema.unique.getD [] ∨
        ∃ d : FieldDefinition, (f, FieldDef.detailed d) ∈ schema.fields ∧ d.unique = true)) ∧
    ((CassandraModel.checkUniqueConstraints schema store data vundefined).1 = .ok () ↔
      ∀ f ∈ CassandraModel.getUniqueFields schema, isUndefined (getK data f) = false →
        CassandraModel.findByUniqueField store f (getK data f) = none) ∧
    (∀ msg, (CassandraModel.checkUniqueConstraints schema store data vundefined).1 = .error msg →
      ∃ f, f ∈ CassandraModel.getUniqueFields schema ∧ isUndefined (getK data f) = false ∧
        (CassandraModel.findByUniqueField store f (getK data f)).isSome = true ∧
        msg = f ++ " '" ++ jsString (getK data f) ++ "' already exists") := by
  refine ⟨⟨nodup_dedupFirst _, ?_⟩, ?_, ?_⟩
  · intro f
    simp only [CassandraModel.getUniqueFields, mem_dedupFirst, List.mem_append,
      uniqueList_getD, List.mem_filterMap]
    constructor
    · rintro (hs | ⟨⟨k, fd⟩, he, hg⟩)
      · exact Or.inl hs
      · cases fd with
        | simple t => simp at hg
        | detailed d =>
          by_cases hq : d.unique = true
          · simp only [hq, if_true] at hg
            injection hg with hg
            subst hg
            exact Or.inr ⟨d, he, hq⟩
          · simp only [Bool.not_eq_true] at hq
            simp [hq] at hg
    · rintro (hs | ⟨d, hd, hq⟩)
      · exact Or.inl hs
      · exact Or.inr ⟨(f, FieldDef.detailed d), hd, by simp [hq]⟩
  · simp only [CassandraModel.checkUniqueConstraints]
    rw [checkUniqueFieldsGo_ok_iff]
    constructor
    · intro h f hf hu
      cases hex : CassandraModel.findByUniqueField store f (getK data f) with
      | none => rfl
      | some row =>
        obtain ⟨htr, _⟩ := h f hf hu row hex
        exact absurd htr (by decide)
    · intro h f hf hu row hrow
      rw [h f hf hu] at hrow
      cases hrow
  · intro msg herr
    simp only [CassandraModel.checkUniqueConstraints] at herr
    obtain ⟨f, hf, hu, row, hrow, _, hmsg⟩ := checkUniqueFieldsGo_error _ _ _ _ _ herr
    exact ⟨f, hf, hu, by rw [hrow]; rfl, hmsg⟩

/-- C5 witness: the spec §8 duplicate-create scenario — with one stored row
holding `email = 'a@b.com'`, creating that email again fails with the
message naming the field and value; and the unique-field set of the schema
is characterized as the union. -/
theorem C5_witness :
    (∀ f, f ∈ CassandraModel.getUniqueFields reqSchema ↔
      (f ∈ reqSchema.unique.getD [] ∨
       ∃ d : FieldDefinition, (f, FieldDef.detailed d) ∈ reqSchema.fields ∧ d.unique = true)) ∧
    (∃ f, f ∈ CassandraModel.getUniqueFields reqSchema ∧
      isUndefined (getK [("email", vstr "a@b.com")] f) = false ∧
      (CassandraModel.findByUniqueField [[("email", vstr "a@b.com"), ("id", vid "uuid" 0)]]
        f (getK [("email", vstr "a@b.com")] f)).isSome = true ∧
      "email 'a@b.com' already exists" =
        f ++ " '" ++ jsString (getK [("email", vstr "a@b.com")] f) ++ "' already exists") :=
  ⟨(C5_theorem reqSchema [[("email", vstr "a@b.com"), ("id", vid "uuid" 0)]]
      [("email", vstr "a@b.com")]).1.2,
   (C5_theorem reqSchema [[("email", vstr "a@b.com"), ("id", vid "uuid" 0)]]
      [("email", vstr "a@b.com")]).2.2 "email 'a@b.com' already exists" rfl⟩

/-- C6: a validation failure throws the single joined message before any
statement executes; a uniqueness failure propagates its error after only
reads; in both cases, for `create` and for `update`, no write statement is
executed and the store is unchanged by the call. -/
theorem C6_theorem (schema : ModelSchema) (store : Store) (data whereC : Row) :
    (Validator.validate data schema.fields false ≠ [] →
      (CassandraModel.create schema store data).result =
        .error ("Validation failed: " ++
          String.intercalate ", " (Validator.validate data schema.fields false)) ∧
      (CassandraModel.create schema store data).trace = [] ∧
      (CassandraModel.create schema store data).store = store) ∧
    (∀ msg, Validator.validate data schema.fields false = [] →
      (CassandraModel.checkUniqueConstraints schema store data vundefined).1 = .error msg →
      (CassandraModel.create schema store data).result = .error msg ∧
      (∀ st ∈ (CassandraModel.create schema store data).trace, isWriteStmt st = false) ∧
      (CassandraModel.create schema store data).store = store) ∧
    (Validator.validate data schema.fields true ≠ [] →
      (CassandraModel.update schema store data whereC).result =
        .error ("Validation failed: " ++
          String.intercalate ", " (Validator.validate data schema.fields true)) ∧
      (CassandraModel.update schema store data whereC).trace = [] ∧
      (CassandraModel.update schema store data whereC).store = store) ∧
    (∀ cur msg, Validator.validate data schema.fields true = [] →
      CassandraModel.findOneRow store whereC = some cur →
      (CassandraModel.checkUniqueConstraints schema store data (getK cur "id")).1 =
        .error msg →
      (CassandraModel.update schema store data whereC).result = .error msg ∧
      (∀ st ∈ (CassandraModel.update schema store data whereC).trace,
        isWriteStmt st = false) ∧
      (CassandraModel.update schema store data whereC).store = store) := by
  refine ⟨?_, ?_, ?_, ?_⟩
  · intro h
    simp only [CassandraModel.create]
    rw [if_neg h]
    exact ⟨rfl, rfl, rfl⟩
  · intro msg hval hcheck
    rcases hpair : CassandraModel.checkUniqueConstraints schema store data vundefined
      with ⟨res, tr⟩
    rw [hpair] at hcheck
    simp only at hcheck
    subst hcheck
    have htrace : ∀ st ∈ tr, isWriteStmt st = false := by
      have hgo := checkUniqueFieldsGo_trace store data vundefined
        (CassandraModel.getUniqueFields schema)
      have h2 : (CassandraModel.checkUniqueConstraints schema store data vundefined).2 = tr :=
        congrArg Prod.snd hpair
      simp only [CassandraModel.checkUniqueConstraints] at h2
      rw [← h2]
      exact hgo
    have hcr : CassandraModel.create schema store data = ⟨.error msg, tr, store⟩ := by
      simp only [CassandraModel.create]
      rw [if_pos hval]
      simp only [hpair]
    rw [hcr]
    exact ⟨rfl, htrace, rfl⟩
  · intro h
    simp only [CassandraModel.update]
    rw [if_neg h]
    exact ⟨rfl, rfl, rfl⟩
  · intro cur msg hval hfind hcheck
    rcases hpair : CassandraModel.checkUniqueConstraints schema store data (getK cur "id")
      with ⟨res, tr⟩
    rw [hpair] at hcheck
    simp only at hcheck
    subst hcheck
    have htrace : ∀ st ∈ tr, isWriteStmt st = false := by
      have hgo := checkUniqueFieldsGo_trace store data (getK cur "id")
        (CassandraModel.getUniqueFields schema)
      have h2 : (CassandraModel.checkUniqueConstraints schema store data (getK cur "id")).2
          = tr := congrArg Prod.snd hpair
      simp only [CassandraModel.checkUniqueConstraints] at h2
      rw [← h2]
      exact hgo
    have hup : CassandraModel.update schema store data whereC =
        ⟨.error msg, Statement.selectAll whereC :: tr, store⟩ := by
      simp only [CassandraModel.update]
      rw [if_pos hval]
      simp only [hfind, hpair]
    rw [hup]
    refine ⟨rfl, ?_, rfl⟩
    intro st hst
    rcases List.mem_cons.mp hst with rfl | hst'
    · rfl
    · exact htrace st hst'

/-- C6 witness: creating with a missing required email fails with the joined
validation message before any statement runs; creating a duplicate email
fails with the uniqueness error after reads only, leaving the store
unchanged. -/
theorem C6_witness :
    ((CassandraModel.create reqSchema [] []).result =
       .error ("Validation failed: " ++
         String.intercalate ", " (Validator.validate [] reqSchema.fields false)) ∧
     (CassandraModel.create reqSchema [] []).trace = [] ∧
     (CassandraModel.create reqSchema [] []).store = []) ∧
    ((CassandraModel.create reqSchema
        [[("email", vstr "a@b.com"), ("id", vid "uuid" 0)]]
        [("email", vstr "a@b.com")]).result = .error "email 'a@b.com' already exists" ∧
     (∀ st ∈ (CassandraModel.create reqSchema
        [[("email", vstr "a@b.com"), ("id", vid "uuid" 0)]]
        [("email", vstr "a@b.com")]).trace, isWriteStmt st = false) ∧
     (CassandraModel.create reqSchema
        [[("email", vstr "a@b.com"), ("id", vid "uuid" 0)]]
        [("email", vstr "a@b.com")]).store =
       [[("email", vstr "a@b.com"), ("id", vid "uuid" 0)]]) :=
  ⟨(C6_theorem reqSchema [] [] []).1 (by decide),
   (C6_theorem reqSchema [[("email", vstr "a@b.com"), ("id", vid "uuid" 0)]]
      [("email", vstr "a@b.com")] []).2.1 "email 'a@b.com' already exists" rfl rfl⟩

/-- C7: the SET clause of every UPDATE statement an `update` call executes
never contains a primary-key field — the converted update set is filtered
through `!schema.key.includes(key)` before the statement is built. -/
theorem C7_theorem (schema : ModelSchema) (store : Store) (data whereC : Row)
    (st : Statement)
    (hst : st ∈ (CassandraModel.update schema store data whereC).trace)
    (setC wc : Row) (heq : st = Statement.update setC wc)
    (k : String) (hk : k ∈ schema.key) :
    k ∉ setC.map Prod.fst := by
  subst heq
  simp only [CassandraModel.update] at hst
  by_cases hval : Validator.validate data schema.fields true = []
  · rw [if_pos hval] at hst
    rcases hpair : (match CassandraModel.findOneRow store whereC with
      | some currentRecord =>
        CassandraModel.checkUniqueConstraints schema store data (getK currentRecord "id")
      | none => ((.ok (), []) : Except String Unit × List Statement))
      with ⟨res, tr⟩
    have htr : ∀ s ∈ tr, isWriteStmt s = false := by
      cases hfind : CassandraModel.findOneRow store whereC with
      | some cur =>
        rw [hfind] at hpair
        have := congrArg Prod.snd hpair
        simp only [CassandraModel.checkUniqueConstraints] at this
        rw [← this]
        exact checkUniqueFieldsGo_trace _ _ _ _
      | none =>
        rw [hfind] at hpair
        injection hpair with h1 h2
        rw [← h2]
        intro s hs
        cases hs
    rw [hpair] at hst
    cases res with
    | error e =>
      simp only at hst
      rcases List.mem_cons.mp hst with habs | hst'
      · cases habs
      · have := htr _ hst'
        simp [isWriteStmt] at this
    | ok u =>
      cases u
      simp only at hst
      cases hconv : TypeConverter.convertObject data schema.fields with
      | none =>
        rw [hconv] at hst
        simp only at hst
        rcases List.mem_cons.mp hst with habs | hst'
        · cases habs
        · have := htr _ hst'
          simp [isWriteStmt] at this
      | some converted =>
        rw [hconv] at hst
        simp only at hst
        rcases List.mem_cons.mp hst with habs | hst'
        · cases habs
        · rcases List.mem_append.mp hst' with hin | hin
          · have := htr _ hin
            simp [isWriteStmt] at this
          · rcases List.mem_singleton.mp hin with heq2
            injection heq2 with hset hwc
            subst hset
            intro hmem
            obtain ⟨e, he, hfst⟩ := List.mem_map.mp hmem
            have hfil := (List.mem_filter.mp he).2
            rw [hfst] at hfil
            simp only [Bool.not_eq_true'] at hfil
            simp [hk] at hfil
  · rw [if_neg hval] at hst
    cases hst

/-- C7 witness: an update supplying both the primary key `id` and `email`
executes an UPDATE statement whose SET clause contains only `email`. -/
theorem C7_witness : "id" ∉ ([("email", vstr "w")] : Row).map Prod.fst :=
  C7_theorem schemaIdPk [rowIdA] [("id", vstr "zzz"), ("email", vstr "w")]
    [("id", vstr "n1")]
    (Statement.update [("email", vstr "w")] [("id", vstr "n1")])
    (by decide)
    [("email", vstr "w")] [("id", vstr "n1")] rfl "id" (by decide)

/-- C1 counterexample: the exclusion key is the literal `id` attribute of
the record found by `findOne(where)`, not the schema's primary key.  With a
primary key named `key`, updating a record's unique `email` to its own
current value is rejected with a uniqueness error, although the claim says
it succeeds. -/
theorem C1_counterexample :
    schemaKeyPk.key = ["key"] ∧
    CassandraModel.findOneRow [rowKeyPk] [("key", vstr "k1")] = some rowKeyPk ∧
    getK rowKeyPk "email" = vstr "x" ∧
    (CassandraModel.update schemaKeyPk [rowKeyPk] [("email", vstr "x")]
      [("key", vstr "k1")]).result = .error "email 'x' already exists" :=
  ⟨rfl, rfl, rfl, rfl⟩

/-- C1 as amended: `update` passes `currentRecord.id` — the value of the
found record's attribute literally named `id` — as the exclusion key.  When
every stored row holding a unique value of the update has an `id` equal to
the found record's (truthy) `id`, the update passes the uniqueness check
and succeeds; when some holder's `id` differs from it (or the found record
has no truthy `id` at all), the update fails with the uniqueness error.
The claimed behavior therefore holds exactly when the record's identity is
carried by a field named `id` comparing by value. -/
theorem C1_theorem (schema : ModelSchema) (store : Store) (data whereC cur : Row)
    (hval : Validator.validate data schema.fields true = [])
    (hfind : CassandraModel.findOneRow store whereC = some cur) :
    ((∀ f ∈ CassandraModel.getUniqueFields schema, isUndefined (getK data f) = false →
        ∀ row, CassandraModel.findByUniqueField store f (getK data f) = some row →
          truthy (getK cur "id") = true ∧ (getK row "id" == getK cur "id") = true) →
      ∀ conv, TypeConverter.convertObject data schema.fields = some conv →
        (CassandraModel.update schema store data whereC).result = .ok ()) ∧
    ((∃ f, f ∈ CassandraModel.getUniqueFields schema ∧ isUndefined (getK data f) = false ∧
        ∃ row, CassandraModel.findByUniqueField store f (getK data f) = some row ∧
          (truthy (getK cur "id") = false ∨ (getK row "id" == getK cur "id") = false)) →
      ∃ msg, (CassandraModel.update schema store data whereC).result = .error msg ∧
        ∃ f, f ∈ CassandraModel.getUniqueFields schema ∧
          msg = f ++ " '" ++ jsString (getK data f) ++ "' already exists") := by
  constructor
  · intro hall conv hconv
    have hok : (CassandraModel.checkUniqueConstraints schema store data
        (getK cur "id")).1 = .ok () := by
      simp only [CassandraModel.checkUniqueConstraints]
      exact (checkUniqueFieldsGo_ok_iff _ _ _ _).mpr hall
    rcases hpair : CassandraModel.checkUniqueConstraints schema store data (getK cur "id")
      with ⟨res, tr⟩
    rw [hpair] at hok
    simp only at hok
    subst hok
    simp only [CassandraModel.update]
    rw [if_pos hval]
    simp only [hfind, hpair, hconv]
  · rintro ⟨f, hf, hu, row, hrow, hviol⟩
    have hnok : (CassandraModel.checkUniqueConstraints schema store data
        (getK cur "id")).1 ≠ .ok () := by
      simp only [CassandraModel.checkUniqueConstraints]
      intro h
      rw [checkUniqueFieldsGo_ok_iff] at h
      obtain ⟨htr, hbeq⟩ := h f hf hu row hrow
      rcases hviol with hv | hv
      · rw [htr] at hv; cases hv
      · rw [hbeq] at hv; cases hv
    rcases except_unit_cases ((CassandraModel.checkUniqueConstraints schema store data
        (getK cur "id")).1) with hok | ⟨msg, herr⟩
    · exact absurd hok hnok
    · have hchar := checkUniqueFieldsGo_error store data (getK cur "id")
        (CassandraModel.getUniqueFields schema) msg
        (by simpa [CassandraModel.checkUniqueConstraints] using herr)
      obtain ⟨g, hg, _, _, _, _, hmsg⟩ := hchar
      refine ⟨msg, ?_, g, hg, hmsg⟩
      rcases hpair : CassandraModel.checkUniqueConstraints schema store data (getK cur "id")
        with ⟨res, tr⟩
      rw [hpair] at herr
      simp only at herr
      subst herr
      simp only [CassandraModel.update]
      rw [if_pos hval]
      simp only [hfind, hpair]

/-- C1 witness: with the primary key named `id` (string-valued), updating a
record's unique email to its own current value succeeds, and updating it to
another record's email fails with the uniqueness error. -/
theorem C1_witness :
    (CassandraModel.update schemaIdPk [rowIdA] [("email", vstr "x")]
      [("id", vstr "n1")]).result = .ok () ∧
    (∃ msg, (CassandraModel.update schemaIdPk [rowIdA, rowIdB] [("email", vstr "y")]
      [("id", vstr "n1")]).result = .error msg ∧
      ∃ f, f ∈ CassandraModel.getUniqueFields schemaIdPk ∧
        msg = f ++ " '" ++ jsString (getK [("email", vstr "y")] f) ++ "' already exists") := by
  constructor
  · refine (C1_theorem schemaIdPk [rowIdA] [("email", vstr "x")] [("id", vstr "n1")]
      rowIdA rfl rfl).1 ?_ [("email", vstr "x"), ("id", vid "nanoid" 0)] rfl
    intro f hf hu row hrow
    rw [show CassandraModel.getUniqueFields schemaIdPk = ["email"] from rfl] at hf
    have hfe : f = "email" := List.mem_singleton.mp hf
    subst hfe
    rw [show CassandraModel.findByUniqueField [rowIdA] "email"
      (getK [("email", vstr "x")] "email") = some rowIdA from rfl] at hrow
    injection hrow with hrow
    subst hrow
    exact ⟨rfl, rfl⟩
  · exact (C1_theorem schemaIdPk [rowIdA, rowIdB] [("email", vstr "y")]
      [("id", vstr "n1")] rowIdA rfl rfl).2
      ⟨"email", by decide, by decide, rowIdB, rfl, Or.inr (by decide)⟩
